import Mathlib

/-!
Verification of the email archiving service (`email_service`): a shallow
embedding of its client (`internal/client.py`) and store (`internal/database.py`),
with theorems settling the behavioural claims of the specification.

Conventions of the embedding:
* Python byte strings are `List Nat` (each entry a byte value).
* Python `datetime` values flow through the store as their string form
  (sqlite stores TEXT and compares lexicographically), so they are `String`s.
* `hashlib.sha256(...).hexdigest()` is implemented bit-for-bit below.
* sqlite is modelled relationally: each table is a list of row structures, and
  an `INSERT` violating a PRIMARY KEY constraint is an `Except.error`.
* Character classes of Python's `re` and `str` methods are modelled over their
  ASCII fragments (the subjects and bodies exercised by the claims are ASCII).
-/

namespace EmailService

/-! ## SHA-256 (models `hashlib.sha256`) -/

/-- Truncate to 32 bits. -/
def u32 (x : Nat) : Nat := x % 4294967296

/-- Rotation right by n bits within 32 bits. -/
def rotr32 (n x : Nat) : Nat := u32 ((x >>> n) ||| (x <<< (32 - n)))

/-- SHA-256 round constants (the fractional parts of the cube roots of the first 64
primes, as 32-bit words, written in decimal). -/
def sha_k : List Nat :=
  [1116352408, 1899447441, 3049323471, 3921009573, 961987163, 1508970993,
   2453635748, 2870763221, 3624381080, 310598401, 607225278, 1426881987,
   1925078388, 2162078206, 2614888103, 3248222580, 3835390401, 4022224774,
   264347078, 604807628, 770255983, 1249150122, 1555081692, 1996064986,
   2554220882, 2821834349, 2952996808, 3210313671, 3336571891, 3584528711,
   113926993, 338241895, 666307205, 773529912, 1294757372, 1396182291,
   1695183700, 1986661051, 2177026350, 2456956037, 2730485921, 2820302411,
   3259730800, 3345764771, 3516065817, 3600352804, 4094571909, 275423344,
   430227734, 506948616, 659060556, 883997877, 958139571, 1322822218,
   1537002063, 1747873779, 1955562222, 2024104815, 2227730452, 2361852424,
   2428436474, 2756734187, 3204031479, 3329325298]

/-- SHA-256 initial hash state (fractional parts of the square roots of the first
8 primes, as 32-bit words, written in decimal). -/
def sha_h0 : List Nat :=
  [1779033703, 3144134277, 1013904242, 2773480762,
   1359893119, 2600822924, 528734635, 1541459225]

/-- Big-endian encoding of a 64-bit value as 8 bytes. -/
def be64 (n : Nat) : List Nat :=
  [(n >>> 56) % 256, (n >>> 48) % 256, (n >>> 40) % 256, (n >>> 32) % 256,
   (n >>> 24) % 256, (n >>> 16) % 256, (n >>> 8) % 256, n % 256]

/-- SHA-256 padding: append 0x80, zero bytes, then the bit length, to a 64-byte multiple. -/
def sha_pad (msg : List Nat) : List Nat :=
  let l := msg.length
  let z := (64 - ((l + 9) % 64)) % 64
  msg ++ [0x80] ++ List.replicate z 0 ++ be64 (8 * l)

/-- Split a byte list into 64-byte blocks (fuel-based; fuel = list length suffices). -/
def toBlocksGo : Nat → List Nat → List (List Nat)
  | 0, _ => []
  | _, [] => []
  | fuel + 1, l => l.take 64 :: toBlocksGo fuel (l.drop 64)

/-- Split a byte list into 64-byte blocks. -/
def toBlocks (l : List Nat) : List (List Nat) := toBlocksGo l.length l

/-- Big-endian 32-bit word from the first four bytes. -/
def beWord : List Nat → Nat
  | a :: b :: c :: d :: _ => (a <<< 24) + (b <<< 16) + (c <<< 8) + d
  | _ => 0

/-- The sixteen 32-bit words of a 64-byte block. -/
def blockWords (b : List Nat) : List Nat :=
  (List.range 16).map (fun i => beWord (b.drop (4 * i)))

/-- Message-schedule extension from 16 to 64 words. -/
def sched (ws : List Nat) : List Nat :=
  (List.range 48).foldl (fun w _ =>
    let n := w.length
    let x15 := w.getD (n - 15) 0
    let x2 := w.getD (n - 2) 0
    let s0 := rotr32 7 x15 ^^^ rotr32 18 x15 ^^^ (x15 >>> 3)
    let s1 := rotr32 17 x2 ^^^ rotr32 19 x2 ^^^ (x2 >>> 10)
    w ++ [u32 (w.getD (n - 16) 0 + s0 + w.getD (n - 7) 0 + s1)]) ws

/-- SHA-256 compression of one 64-byte block into the running hash state. -/
def compress (hs : List Nat) (block : List Nat) : List Nat :=
  let w := sched (blockWords block)
  let r := (List.range 64).foldl (fun st i =>
    match st with
    | [a, b, c, d, e, f, g, h] =>
      let s1 := rotr32 6 e ^^^ rotr32 11 e ^^^ rotr32 25 e
      let ch := (e &&& f) ^^^ ((e ^^^ 4294967295) &&& g)
      let t1 := u32 (h + s1 + ch + sha_k.getD i 0 + w.getD i 0)
      let s0 := rotr32 2 a ^^^ rotr32 13 a ^^^ rotr32 22 a
      let mj := (a &&& b) ^^^ (a &&& c) ^^^ (b &&& c)
      let t2 := u32 (s0 + mj)
      [u32 (t1 + t2), a, b, c, u32 (d + t1), e, f, g]
    | other => other) hs
  List.zipWith (fun x y => u32 (x + y)) hs r

/-- SHA-256 digest of a byte list, as eight 32-bit words. -/
def sha256words (msg : List Nat) : List Nat :=
  (toBlocks (sha_pad msg)).foldl compress sha_h0

/-- Lowercase hexadecimal digit. -/
def hexDigit (n : Nat) : Char := if n < 10 then Char.ofNat (48 + n) else Char.ofNat (87 + n)

/-- Eight lowercase hex characters of one 32-bit word. -/
def word8hex (n : Nat) : List Char :=
  (List.range 8).map (fun i => hexDigit ((n >>> (28 - 4 * i)) % 16))

/-- Lowercase hex SHA-256 digest of a byte list: models `hashlib.sha256(b).hexdigest()`. -/
def sha256hex (msg : List Nat) : String :=
  String.mk ((sha256words msg).map word8hex).flatten

/-- UTF-8 encoding of one character. -/
def utf8Char (c : Char) : List Nat :=
  let n := c.toNat
  if n < 0x80 then [n]
  else if n < 0x800 then [0xC0 + n / 64, 0x80 + n % 64]
  else if n < 0x10000 then [0xE0 + n / 4096, 0x80 + (n / 64) % 64, 0x80 + n % 64]
  else [0xF0 + n / 262144, 0x80 + (n / 4096) % 64, 0x80 + (n / 64) % 64, 0x80 + n % 64]

/-- UTF-8 bytes of a string: models Python `str.encode()`. -/
def strBytes (s : String) : List Nat := (s.data.map utf8Char).flatten

/-! ## Python string helpers -/

/-- Python `\s` over its ASCII fragment: space, tab, LF, CR, VT, FF. -/
def isPySpace (c : Char) : Bool :=
  c == ' ' || c == '\t' || c == '\n' || c == '\x0d' || c == '\x0b' || c == '\x0c'

/-- Python `\w` over its ASCII fragment: alphanumerics and underscore. -/
def isPyWordChar (c : Char) : Bool := c.isAlphanum || c == '_'

/-- ASCII line boundaries of Python `str.splitlines`. -/
def isLineBoundary (c : Char) : Bool :=
  c == '\n' || c == '\x0d' || c == '\x0b' || c == '\x0c' ||
  c == '\x1c' || c == '\x1d' || c == '\x1e'

/-- Python `str.strip()` (ASCII whitespace fragment). -/
def pyStrip (s : String) : String :=
  String.mk (((s.data.dropWhile isPySpace).reverse.dropWhile isPySpace).reverse)

/-- Python `str.lower()` (ASCII fragment). -/
def pyLower (s : String) : String := String.mk (s.data.map Char.toLower)

/-- Python `str.upper()` (ASCII fragment). -/
def pyUpper (s : String) : String := String.mk (s.data.map Char.toUpper)

/-- Python `str.startswith`. -/
def strStartsWith (s pat : String) : Bool := pat.data.isPrefixOf s.data

/-- Worker for `pyReplace`: leftmost, non-overlapping replacement, continuing after
each replaced occurrence. Fuel-based; each step consumes at least one character of
the subject (the pattern is non-empty), so fuel equal to the length suffices. -/
def replaceGo : Nat → List Char → List Char → List Char → List Char
  | 0, _, _, l => l
  | _ + 1, _, _, [] => []
  | fuel + 1, pat, repl, c :: cs =>
    if pat.isPrefixOf (c :: cs) then
      repl ++ replaceGo fuel pat repl ((c :: cs).drop pat.length)
    else c :: replaceGo fuel pat repl cs

/-- Python `str.replace(pat, repl)`: all non-overlapping occurrences, left to right. -/
def pyReplace (s pat repl : String) : String :=
  if pat.data.isEmpty then s
  else String.mk (replaceGo s.data.length pat.data repl.data s.data)

/-- Worker for `pySplitNl`: accumulates the current piece (reversed). -/
def splitOnNlGo : List Char → List Char → List (List Char)
  | [], cur => [cur.reverse]
  | '\n' :: rest, cur => cur.reverse :: splitOnNlGo rest []
  | c :: rest, cur => splitOnNlGo rest (c :: cur)

/-- Python `str.split("\n")`: keeps empty pieces, including a trailing one. -/
def pySplitNl (s : String) : List String := (splitOnNlGo s.data []).map String.mk

/-- Python `sep.join(parts)`. -/
def joinWith (sep : String) (parts : List String) : String :=
  String.mk (List.intercalate sep.data (parts.map String.data))

/-- Worker for `pySplitlines`: accumulates the current line (reversed). -/
def pySplitlinesGo : List Char → List Char → List (List Char)
  | [], cur => [cur.reverse]
  | '\x0d' :: '\n' :: rest, cur =>
    cur.reverse :: (if rest.isEmpty then [] else pySplitlinesGo rest [])
  | c :: rest, cur =>
    if isLineBoundary c then
      cur.reverse :: (if rest.isEmpty then [] else pySplitlinesGo rest [])
    else pySplitlinesGo rest (c :: cur)

/-- Python `str.splitlines()`: splits at line boundaries (`\r\n` counts once),
with no trailing empty line and `[]` on the empty string. -/
def pySplitlines (l : List Char) : List (List Char) :=
  if l.isEmpty then [] else pySplitlinesGo l []

/-- Collapse every whitespace run to a single space: models `re.sub(r'\s+', ' ', s)`.
The boolean records whether the previous character was part of a whitespace run. -/
def collapseWsGo : List Char → Bool → List Char
  | [], _ => []
  | c :: rest, prev =>
    if isPySpace c then
      if prev then collapseWsGo rest true else ' ' :: collapseWsGo rest true
    else c :: collapseWsGo rest false

/-- Count and drop the maximal leading run satisfying `p`. -/
def spanCount (p : Char → Bool) (l : List Char) : Nat × List Char :=
  ((l.takeWhile p).length, l.dropWhile p)

/-- Regex piece `\d{1,2},`: one or two digits directly followed by a comma (greedy, as in `re`). -/
def digitsComma : List Char → Option (List Char)
  | d1 :: d2 :: d3 :: rest =>
    if d1.isDigit && d2.isDigit && d3 == ',' then some rest
    else if d1.isDigit && d2 == ',' then some (d3 :: rest)
    else none
  | [d1, d2] => if d1.isDigit && d2 == ',' then some [] else none
  | _ => none

/-- Regex piece `\d{4}`: exactly four digits. -/
def fourDigits : List Char → Option (List Char)
  | a :: b :: c :: d :: rest =>
    if a.isDigit && b.isDigit && c.isDigit && d.isDigit then some rest else none
  | _ => none

/-- Match the regex `:\s+\w+\s+\d{1,2},\s+\d{4}` at the head of the list, returning
the remainder after the match. Because the character classes of adjacent pieces are
disjoint, each `+` quantifier is forced to its maximal run, so this direct matcher
is equivalent to `re`'s backtracking on this pattern. -/
def matchDate (l : List Char) : Option (List Char) :=
  match l with
  | ':' :: r0 =>
    let (n1, r1) := spanCount isPySpace r0
    if n1 == 0 then none else
    let (n2, r2) := spanCount isPyWordChar r1
    if n2 == 0 then none else
    let (n3, r3) := spanCount isPySpace r2
    if n3 == 0 then none else
    match digitsComma r3 with
    | none => none
    | some r4 =>
      let (n5, r5) := spanCount isPySpace r4
      if n5 == 0 then none else fourDigits r5
  | _ => none

/-- Worker for `subDate`: leftmost-first, non-overlapping deletion of matches,
continuing after each match, exactly as `re.sub` with an empty replacement.
Fuel-based recursion; every step consumes at least one character, so fuel equal
to the list length suffices. -/
def subDateGo : Nat → List Char → List Char
  | 0, l => l
  | _ + 1, [] => []
  | fuel + 1, c :: cs =>
    match matchDate (c :: cs) with
    | some rest => subDateGo fuel rest
    | none => c :: subDateGo fuel cs

/-- Models `re.sub(r':\s+\w+\s+\d{1,2},\s+\d{4}', '', s)`. -/
def subDate (l : List Char) : List Char := subDateGo l.length l

/-- Substring containment: models Python's `pat in s`. -/
def strContains (s pat : String) : Bool :=
  (List.range (s.data.length + 1)).any (fun i => pat.data.isPrefixOf (s.data.drop i))

/-- Lexicographic order on character lists by code point. -/
def charListLe : List Char → List Char → Bool
  | [], _ => true
  | _ :: _, [] => false
  | a :: as, b :: bs =>
    if a.toNat < b.toNat then true
    else if b.toNat < a.toNat then false
    else charListLe as bs

/-- String order by code point: sqlite's BINARY collation on TEXT values
(memcmp on UTF-8 bytes agrees with code-point order). -/
def strLe (a b : String) : Bool := charListLe a.data b.data

/-! ## Data model (`internal/models.py` and the sqlite schema of `internal/database.py`) -/

/-- Embeds `models.Account`; also an `accounts` table row (`last_synced` stored as TEXT). -/
structure Account where
  id : Nat
  username : String
  last_synced : String
deriving DecidableEq, Repr

/-- An attachment of a fetched remote message (`imap_tools` attachment part). -/
structure MailAttachment where
  filename : String
  content_type : String
  payload : List Nat
deriving DecidableEq, Repr

/-- A fetched remote message (`imap_tools.MailMessage`): the fields the client reads.
`to_values` holds the recipient addresses (`email.email` of each `to_values` entry);
`date` is the datetime in the string form sqlite stores; `date_str` is the raw
header date string. -/
structure MailMessage where
  uid : Option String
  date_str : String
  date : String
  from_ : String
  to_values : List String
  subject : String
  html : String
  text : String
  attachments : List MailAttachment
deriving DecidableEq, Repr

/-- Embeds `models.Email`: the in-memory dataclass; `analytics_data` is the Python dict,
modelled as an association list. -/
structure Email where
  hash : String
  account_id : Nat
  datetime : String
  mailbox : String
  mailbox_id : String
  from_address : String
  to_addresses : String
  subject : String
  thread : String
  text : String
  analytics_version : Nat
  analytics_data : List (String × String)
deriving DecidableEq, Repr

/-- A row of the `emails` table: as `Email`, with `analytics_data` serialized to TEXT. -/
structure EmailRow where
  hash : String
  account_id : Nat
  datetime : String
  mailbox : String
  mailbox_id : String
  from_address : String
  to_addresses : String
  subject : String
  thread : String
  text : String
  analytics_version : Nat
  analytics_data : String
deriving DecidableEq, Repr

/-- Embeds `models.Attachment`; also an `attachments` table row. -/
structure Attachment where
  hash : String
  content : List Nat
deriving DecidableEq, Repr

/-- Embeds `models.EmailAttachment`: link data plus the attachment object itself. -/
structure EmailAttachment where
  account_id : Nat
  email_hash : String
  attachment_hash : String
  filename : String
  content_type : String
  attachment : Attachment
deriving DecidableEq, Repr

/-- A row of the `email_attachments` table. -/
structure EmailAttachmentRow where
  account_id : Nat
  email_hash : String
  attachment_hash : String
  filename : String
  content_type : String
deriving DecidableEq, Repr

/-- The sqlite database: one list of rows per table, each in insertion order. -/
structure Store where
  accounts : List Account
  emails : List EmailRow
  email_attachments : List EmailAttachmentRow
  attachments : List Attachment
deriving DecidableEq, Repr

/-- The empty database, as created by `Database._create_tables`. -/
def emptyStore : Store := { accounts := [], emails := [], email_attachments := [], attachments := [] }

/-- Models `json.dumps` on a flat string-valued dict; the empty dict serializes to `"\x7b\x7d"`. -/
def jsonDumpsPairs (l : List (String × String)) : String :=
  "\x7b" ++ joinWith ", "
    (l.map (fun p => "\x22" ++ p.1 ++ "\x22: \x22" ++ p.2 ++ "\x22")) ++ "\x7d"

/-- The `emails` row written for an `Email` (`analytics_data` passes through `json.dumps`). -/
def emailToRow (e : Email) : EmailRow :=
  { hash := e.hash, account_id := e.account_id, datetime := e.datetime,
    mailbox := e.mailbox, mailbox_id := e.mailbox_id, from_address := e.from_address,
    to_addresses := e.to_addresses, subject := e.subject, thread := e.thread,
    text := e.text, analytics_version := e.analytics_version,
    analytics_data := jsonDumpsPairs e.analytics_data }

/-! ## `Database` (`internal/database.py`) -/

/-- Embeds `Database.check_email_exists`: `SELECT hash FROM emails WHERE hash = ?`. -/
def check_email_exists (s : Store) (email : Email) : Bool :=
  s.emails.any (fun r => r.hash == email.hash)

/-- Embeds `Database.check_attachment_exists`: `SELECT hash FROM attachments WHERE hash = ?`. -/
def check_attachment_exists (s : Store) (attachment : Attachment) : Bool :=
  s.attachments.any (fun r => r.hash == attachment.hash)

/-- Embeds `Database.check_email_attachment_exists`: lookup by the composite key
`(account_id, email_hash, attachment_hash)`. -/
def check_email_attachment_exists (s : Store) (ea : EmailAttachment) : Bool :=
  s.email_attachments.any (fun r =>
    r.account_id == ea.account_id && r.email_hash == ea.email_hash &&
    r.attachment_hash == ea.attachment_hash)

/-- Embeds `Database.get_account`: look the username up; if absent, INSERT a fresh row.
The inserted row's `last_synced` is `datetime.now()` — modelled by the explicit
`now` argument — while the *returned* dataclass carries
`datetime.fromisoformat("1970-01-01T00:00:00")`. The sqlite rowid is modelled
as one more than the current row count. -/
def get_account (s : Store) (username : String) (now : String) : Account × Store :=
  match s.accounts.find? (fun a => a.username == username) with
  | some row => (row, s)
  | none =>
    let newId := s.accounts.length + 1
    ({ id := newId, username := username, last_synced := "1970-01-01T00:00:00" },
     { s with accounts := s.accounts ++ [{ id := newId, username := username, last_synced := now }] })

/-- Embeds `Database.set_account_last_synced`: `UPDATE accounts SET last_synced = datetime.now()`.
Defined by the source but never invoked by the ingestion path. -/
def set_account_last_synced (s : Store) (account : Account) (now : String) : Store :=
  { s with accounts := s.accounts.map (fun a =>
      if a.id == account.id then { a with last_synced := now } else a) }

/-- Embeds `Database._add_attachment`: unconditional INSERT into `attachments`. -/
def add_attachment (s : Store) (attachment : Attachment) : Store :=
  { s with attachments := s.attachments ++ [attachment] }

/-- The `email_attachments` row written for an `EmailAttachment`. -/
def linkRow (ea : EmailAttachment) : EmailAttachmentRow :=
  { account_id := ea.account_id, email_hash := ea.email_hash,
    attachment_hash := ea.attachment_hash, filename := ea.filename,
    content_type := ea.content_type }

/-- Embeds `Database.add_emailAttachment`: insert the attachment if its hash is absent,
then insert the link row if its composite key is absent. -/
def add_emailAttachment (s : Store) (ea : EmailAttachment) : Store :=
  let s1 := if check_attachment_exists s ea.attachment then s else add_attachment s ea.attachment
  if check_email_attachment_exists s1 ea then s1
  else { s1 with email_attachments := s1.email_attachments ++ [linkRow ea] }

/-- Embeds `Database.add_email`: an unconditional `INSERT INTO emails`; sqlite raises
`IntegrityError` when the PRIMARY KEY `hash` is already present, modelled as
`Except.error`. -/
def add_email (s : Store) (email : Email) : Except Unit Store :=
  if s.emails.any (fun r => r.hash == email.hash) then Except.error ()
  else Except.ok { s with emails := s.emails ++ [emailToRow email] }

/-- First occurrences of each string, in order (worker; `seen` are already-emitted keys). -/
def dedupFirstGo : List String → List String → List String
  | [], _ => []
  | x :: xs, seen =>
    if seen.contains x then dedupFirstGo xs seen else x :: dedupFirstGo xs (x :: seen)

/-- Distinct values in first-occurrence order: models sqlite `GROUP BY` group formation. -/
def dedupFirst (l : List String) : List String := dedupFirstGo l []

/-- The `datetime` value sqlite reports for a bare (non-aggregated) column of a
`GROUP BY thread` group: the value from an arbitrarily selected row of the group.
SQLite evaluates this query with a temp B-tree GROUP BY, delivering the rows sorted
by `thread` with insertion order preserved within each group, and the bare column
carries the values of the *first* row of each group in that scan order — so the
representative is the first matching row in insertion order. -/
def repDatetime (rows : List EmailRow) (t : String) : String :=
  (((rows.filter (fun e => e.thread == t)).head?).map (fun e => e.datetime)).getD ""

/-- One `GROUP BY thread` output group: `(thread, COUNT(*), representative datetime)`. -/
abbrev GroupRow := String × Nat × String

/-- Insert into a list sorted by representative datetime descending (stable). -/
def insertGroupDesc (x : GroupRow) : List GroupRow → List GroupRow
  | [] => [x]
  | y :: ys => if strLe x.2.2 y.2.2 then y :: insertGroupDesc x ys else x :: y :: ys

/-- Stable insertion sort by representative datetime descending: models `ORDER BY datetime DESC`. -/
def sortGroupsDesc (l : List GroupRow) : List GroupRow := l.foldr insertGroupDesc []

/-- Embeds `Database.get_unique_email_threads`:
`SELECT thread, COUNT(*) FROM emails WHERE account_id = ? GROUP BY thread ORDER BY datetime DESC`.
The bare `datetime` column under `GROUP BY` is the representative-row value
(`repDatetime`); ordering is by that value, descending. -/
def get_unique_email_threads (s : Store) (account : Account) : List (String × Nat) :=
  let rows := s.emails.filter (fun e => e.account_id == account.id)
  let threads := dedupFirst (rows.map (fun e => e.thread))
  let groups : List GroupRow := threads.map (fun t =>
    (t, ((rows.filter (fun e => e.thread == t)).length, repDatetime rows t)))
  (sortGroupsDesc groups).map (fun g => (g.1, g.2.1))

/-! ## `Client` (`internal/client.py`) -/

/-- Embeds `Client._generate_email_id`:
`sha256(f"{username}_{date_str}{from_}{subject}".encode()).hexdigest()`. -/
def generate_email_id (account : Account) (message : MailMessage) : String :=
  sha256hex (strBytes (account.username ++ "_" ++ message.date_str ++ message.from_ ++ message.subject))

/-- Embeds `Client._convert_subject_to_thread`: lower-case; delete every `"re: "` and
`"fwd: "`; delete colon-plus-date fragments; keep only ASCII; join lines with a
space; collapse whitespace runs to single spaces. -/
def convert_subject_to_thread (subject : String) : String :=
  let thread := pyLower subject
  let thread := pyReplace thread "re: " ""
  let thread := pyReplace thread "fwd: " ""
  let thread := String.mk (subDate thread.data)
  let thread := String.mk (thread.data.filter (fun c => c.toNat < 128))
  let thread := joinWith " " ((pySplitlines thread.data).map String.mk)
  String.mk (collapseWsGo thread.data false)

/-- One line is dropped when its upper-cased form starts with a forwarded-header
marker or a quoted-reply marker. -/
def isHeaderOrQuoted (line : String) : Bool :=
  let u := pyUpper line
  strStartsWith u "FROM: " || strStartsWith u "TO: " || strStartsWith u "SUBJECT: " ||
  strStartsWith u "DATE: " || strStartsWith u "CC: " || strStartsWith u "BCC: " ||
  strStartsWith u "> " || strStartsWith u ">> "

/-- Embeds `Client._get_text`: prefer rendered HTML (the external `inscriptis.get_text`
collaborator is passed in as `render`), else the plain text; then trim lines, drop
empty lines, drop header/quoted lines, and strip fixed boilerplate substrings. -/
def get_text (render : String → String) (message : MailMessage) : String :=
  let text := if message.html != "" then render message.html
              else if message.text != "" then message.text
              else ""
  let text := joinWith "\n" ((pySplitNl text).map pyStrip)
  let text := joinWith "\n" ((pySplitNl text).filter (fun line => line != ""))
  let text := joinWith "\n" ((pySplitNl text).filter (fun line => !(isHeaderOrQuoted line)))
  let text := pyReplace text "________________________________" ""
  let text := pyReplace text "This message was sent from a notification-only email address that does not accept incoming email. Please do not reply to this message." ""
  pyReplace text "This is an automated message. Please do not reply to this email." ""

/-- The content types excluded from archiving (first membership test of the loop). -/
def isCalendarType (ct : String) : Bool :=
  ct == "application/ics" || ct == "text/calendar" || ct == "text/calender"

/-- The content types excluded by the second membership test of the loop. -/
def isInlineType (ct : String) : Bool :=
  ct == "message/rfc822" || ct == "message/delivery-status" || ct == "text/html" || ct == "text/plain"

/-- Embeds `Client._convert_MailMessage_to_Email_and_EmailAttachments`: build the `Email`
(with `analytics_version = 0` and an empty `analytics_data` dict) and the list of
archivable `EmailAttachment`s, excluding calendar parts, inline message parts, and
any content type containing `"image/"` (Python's `in` is substring containment). -/
def convert_MailMessage (render : String → String) (account : Account) (folder : String)
    (message : MailMessage) : Email × List EmailAttachment :=
  let to_addresses := joinWith "," (message.to_values.map pyLower)
  let subject := pyStrip (pyReplace message.subject "\n" " ")
  let email : Email :=
    { hash := generate_email_id account message,
      account_id := account.id,
      datetime := message.date,
      mailbox := folder,
      mailbox_id := message.uid.getD "",
      from_address := pyLower message.from_,
      to_addresses := to_addresses,
      subject := subject,
      thread := convert_subject_to_thread subject,
      text := get_text render message,
      analytics_version := 0,
      analytics_data := [] }
  let atts := message.attachments.foldl (fun acc a =>
    if isCalendarType a.content_type then acc
    else if isInlineType a.content_type then acc
    else if strContains a.content_type "image/" then acc
    else
      let attachment : Attachment := { hash := sha256hex a.payload, content := a.payload }
      acc ++ [{ account_id := account.id, email_hash := email.hash,
                attachment_hash := attachment.hash, filename := a.filename,
                content_type := a.content_type, attachment := attachment }]) []
  (email, atts)

/-- A headers-only fetch returns the same messages without body or attachment
payloads (`mailbox.fetch(headers_only=True)`). -/
def headersOnly (m : MailMessage) : MailMessage :=
  { m with html := "", text := "", attachments := [] }

/-- The header loop of `Client._thread_fetch_emails_from_folder`: convert each
header, skip it when `check_email_exists` holds, otherwise append its
`mailbox_id` to the missing list. (The conversion of the embedding is total, so
the `except: continue` arm of the source is never taken.) -/
def headerMissing (render : String → String) (account : Account) (s : Store)
    (folder : String) (messages : List MailMessage) : List String :=
  messages.foldl (fun missing m =>
    let email := (convert_MailMessage render account folder (headersOnly m)).1
    if check_email_exists s email then missing else missing ++ [email.mailbox_id]) []

/-- The persistence loop of `Client._thread_fetch_emails_from_folder`: convert and
`add_email` each fetched message, then `add_emailAttachment` each of its
attachments. The loop body has no exception handler, so an `add_email` error
(duplicate primary key) propagates and aborts the worker: the store keeps the
writes made so far and the remaining messages are not processed. -/
def persistMessages (render : String → String) (account : Account) (folder : String)
    (s : Store) : List MailMessage → Store
  | [] => s
  | m :: rest =>
    let ea := convert_MailMessage render account folder m
    match add_email s ea.1 with
    | Except.error _ => s
    | Except.ok s1 => persistMessages render account folder (ea.2.foldl add_emailAttachment s1) rest

/-- Embeds `Client._thread_fetch_emails_from_folder` for one folder whose remote content
is `folderMsgs`: compute the missing `mailbox_id`s from a headers-only fetch; if
none are missing return with no further remote call (`none`); otherwise fetch the
full messages for exactly those uids (`mailbox.fetch(criteria=OR(uid=uids))`,
modelled as filtering the folder's messages by uid membership) and persist them.
The second component records the uid list of the full fetch, `none` when that
remote call is not made. -/
def thread_fetch_emails_from_folder (render : String → String) (account : Account)
    (folderMsgs : List MailMessage) (folder : String) (s : Store) : Store × Option (List String) :=
  let missing := headerMissing render account s folder (folderMsgs.map headersOnly)
  if missing.isEmpty then (s, none)
  else
    let full := folderMsgs.filter (fun m => missing.contains (m.uid.getD ""))
    (persistMessages render account folder s full, some missing)

/-- Embeds `Client.fetch_emails`: run the per-folder worker over every folder. The
`ThreadPoolExecutor(max_workers=14).map` barrier is modelled as a sequential
fold over the folders; a worker aborted by an exception contributes the writes
it made before the abort (`executor.map`'s unconsumed iterator swallows the
exception). The remote source is the association list `remote` of folder names
to their messages. `fetch_emails` makes no other store writes — in particular it
never calls `set_account_last_synced`. -/
def fetch_emails (render : String → String) (account : Account)
    (remote : List (String × List MailMessage)) (s : Store) : Store :=
  remote.foldl (fun st fm => (thread_fetch_emails_from_folder render account fm.2 fm.1 st).1) s

/-- The attachment loop of `_convert_MailMessage_to_Email_and_EmailAttachments`
archives an attachment exactly when none of its three exclusion tests fire. -/
def archivableType (ct : String) : Bool :=
  !(isCalendarType ct) && !(isInlineType ct) && !(strContains ct "image/")

/-! ## Spec-side definitions -/

/-- The identity hashes present in a store. -/
def storedHashes (s : Store) : List String := s.emails.map (fun r => r.hash)

/-- Modelled from the spec: the most-recent message timestamp within a thread
(`list_threads ... ordered by most-recent message timestamp descending`). -/
def maxThreadDatetime (rows : List EmailRow) (t : String) : String :=
  (rows.filter (fun e => e.thread == t)).foldl
    (fun acc e => if strLe acc e.datetime then e.datetime else acc) ""

/-- Modelled from the spec: the output pairs are ordered by the most-recent
message timestamp within each thread, descending. -/
abbrev orderedByMostRecentDesc (s : Store) (account : Account) (r : List (String × Nat)) : Prop :=
  List.Pairwise (fun p q =>
    strLe (maxThreadDatetime (s.emails.filter (fun e => e.account_id == account.id)) q.1)
          (maxThreadDatetime (s.emails.filter (fun e => e.account_id == account.id)) p.1) = true) r

/-! ## Concrete fixtures for counterexamples and witnesses -/

/-- A trivial stand-in for the external HTML renderer. -/
def renderId : String → String := fun s => s

/-- A fixture account. -/
def acctW : Account := { id := 1, username := "alice", last_synced := "1970-01-01T00:00:00" }

/-- A store holding only the fixture account. -/
def storeW : Store := { emptyStore with accounts := [acctW] }

/-- A fixture remote message. -/
def msgHello1 : MailMessage :=
  { uid := some "1", date_str := "Fri, 5 Jan 2024 10:00:00 +0000", date := "2024-01-05 10:00:00",
    from_ := "bob@x.com", to_values := ["alice@x.com"], subject := "Hello", html := "",
    text := "body", attachments := [] }

/-- A second remote copy with the same identity fields (sender, subject, date string)
as `msgHello1` but a different uid and body: its identity hash collides by design. -/
def msgHello2 : MailMessage := { msgHello1 with uid := some "2", text := "another body" }

/-- A fixture message with distinct identity fields. -/
def msgOther : MailMessage :=
  { msgHello1 with uid := some "3", from_ := "carol@x.com", subject := "Other" }

/-- A one-folder remote containing a duplicated identity hash. -/
def remoteDup : List (String × List MailMessage) := [("INBOX", [msgHello1, msgHello2, msgOther])]

/-- A one-folder remote with pairwise-distinct identity hashes and uids. -/
def remoteOk : List (String × List MailMessage) := [("INBOX", [msgHello1, msgOther])]

/-- The fixture store after `msgHello1` has been ingested. -/
def storeWithHello : Store := persistMessages renderId acctW "INBOX" storeW [msgHello1]

/-- A fixture PDF attachment. -/
def attPdf1 : MailAttachment :=
  { filename := "a.pdf", content_type := "application/pdf", payload := [1, 2, 3] }

/-- The same bytes under a different filename. -/
def attPdf2 : MailAttachment := { attPdf1 with filename := "b.pdf" }

/-- Fixture `msgHello1` carrying the first PDF. -/
def msgAtt1 : MailMessage := { msgHello1 with attachments := [attPdf1] }

/-- Fixture `msgOther` carrying the byte-identical PDF under another name. -/
def msgAtt2 : MailMessage := { msgOther with attachments := [attPdf2] }

/-- A fixture `emails` row for the thread-listing scenarios. -/
def mkThreadRow (h t dt : String) : EmailRow :=
  { hash := h, account_id := 1, datetime := dt, mailbox := "INBOX", mailbox_id := h,
    from_address := "f@x.com", to_addresses := "t@x.com", subject := t, thread := t, text := "",
    analytics_version := 0, analytics_data := "\x7b\x7d" }

/-- A store where thread "a" has the most recent message overall but its
first-inserted row — the group representative — is its oldest one, older than
thread "b"'s only row. -/
def storeThreads : Store :=
  { emptyStore with
    accounts := [acctW],
    emails := [mkThreadRow "h1" "a" "2024-01-01 00:00:00",
               mkThreadRow "h2" "a" "2024-01-10 00:00:00",
               mkThreadRow "h3" "b" "2024-01-05 00:00:00"] }

/-- A one-folder, one-message remote used for the `last_synced` scenario. -/
def remoteOne : List (String × List MailMessage) := [("INBOX", [msgHello1])]

/-! ## Theorems -/

set_option maxRecDepth 4000000

/-- The converted email's `mailbox_id` is the message uid (with `""` for a missing uid). -/
theorem convert_mailbox_id (render : String → String) (account : Account) (folder : String)
    (m : MailMessage) :
    (convert_MailMessage render account folder m).1.mailbox_id = m.uid.getD "" := rfl

/-- The converted email's identity hash is `generate_email_id`. -/
theorem convert_hash (render : String → String) (account : Account) (folder : String)
    (m : MailMessage) :
    (convert_MailMessage render account folder m).1.hash = generate_email_id account m := rfl

/-- A headers-only refetch of a headers-only message is itself. -/
theorem headersOnly_idem (m : MailMessage) : headersOnly (headersOnly m) = headersOnly m := rfl

/-- The identity hash only reads header fields, so a headers-only fetch hashes identically. -/
theorem generate_email_id_headersOnly (account : Account) (m : MailMessage) :
    generate_email_id account (headersOnly m) = generate_email_id account m := rfl

/-- Claim C4: `thread_key` canonicalization: `"Re: "`/`"Fwd: "` markers are removed anywhere in
the lowered subject, colon-plus-date fragments are removed, non-ASCII characters are
dropped, and whitespace runs (including newlines) collapse to single spaces; in particular
`thread_key "Re: Meeting: Jan 5, 2024"` equals `thread_key "meeting"`, and
`thread_key "Fwd: RE: Status"` strips both markers. -/
theorem c4_thread_key_canonicalization :
    convert_subject_to_thread "Re: Meeting: Jan 5, 2024" = convert_subject_to_thread "meeting" ∧
    convert_subject_to_thread "Fwd: RE: Status" = "status" ∧
    convert_subject_to_thread "abc re: def fwd: ghi" = "abc def ghi" ∧
    convert_subject_to_thread "Hi\n  there\tworld" = "hi there world" ∧
    convert_subject_to_thread "h€llo" = "hllo" := by decide

/-- Claim C3: the identity hash is the SHA-256 hex digest of the fixed-order encoding of the
account username, the message's raw date string, its sender, and its subject — and of
nothing else: any two messages of the same account agreeing on those three header fields
(in particular, messages differing only in body text) receive equal identity hashes. -/
theorem c3_identity_hash_deterministic (account : Account) (m1 m2 : MailMessage)
    (hd : m1.date_str = m2.date_str) (hf : m1.from_ = m2.from_) (hs : m1.subject = m2.subject) :
    generate_email_id account m1 =
      sha256hex (strBytes (account.username ++ "_" ++ m1.date_str ++ m1.from_ ++ m1.subject)) ∧
    generate_email_id account m1 = generate_email_id account m2 :=
  ⟨rfl, by unfold generate_email_id; rw [hd, hf, hs]⟩

/-- Witness for `C3`: two fixture messages share the three identity header fields but have
different bodies, and their identity hashes agree. -/
theorem c3_identity_hash_witness :
    (msgHello1.date_str = msgHello2.date_str ∧ msgHello1.from_ = msgHello2.from_ ∧
     msgHello1.subject = msgHello2.subject ∧ msgHello1.text ≠ msgHello2.text) ∧
    generate_email_id acctW msgHello1 = generate_email_id acctW msgHello2 :=
  ⟨by decide, (c3_identity_hash_deterministic acctW msgHello1 msgHello2 rfl rfl rfl).2⟩

/-- Claim C8: `get_account` on an absent username returns a dataclass carrying the epoch-zero
sentinel, but the row it inserts carries `datetime.now()` instead, so a subsequent lookup
of the same username reports the creation time, not epoch zero: the code contradicts the
claimed behaviour on the concrete input below. -/
theorem c8_get_account_epoch_mismatch :
    (get_account emptyStore "alice" "2024-06-01 12:00:00").1.last_synced
      = "1970-01-01T00:00:00" ∧
    ((get_account emptyStore "alice" "2024-06-01 12:00:00").2.accounts.map
      (fun a => a.last_synced)) = ["2024-06-01 12:00:00"] ∧
    (get_account (get_account emptyStore "alice" "2024-06-01 12:00:00").2 "alice"
      "2024-06-02 09:00:00").1.last_synced = "2024-06-01 12:00:00" ∧
    ("2024-06-01 12:00:00" : String) ≠ "1970-01-01T00:00:00" := by decide

/-- Claim C10: every message built by the ingestion conversion carries
`analytics_version = 0` and an empty analytics dict, and the row `add_email`
persists for it stores `0` and the serialized empty dict. -/
theorem c10_ingested_analytics_initial (render : String → String) (account : Account)
    (folder : String) (m : MailMessage) :
    (convert_MailMessage render account folder m).1.analytics_version = 0 ∧
    (convert_MailMessage render account folder m).1.analytics_data = [] ∧
    (emailToRow (convert_MailMessage render account folder m).1).analytics_version = 0 ∧
    (emailToRow (convert_MailMessage render account folder m).1).analytics_data = "\x7b\x7d" :=
  ⟨rfl, rfl, rfl, rfl⟩

/-- The operation `add_emailAttachment` never touches the `accounts` table. -/
theorem accounts_add_emailAttachment (s : Store) (ea : EmailAttachment) :
    (add_emailAttachment s ea).accounts = s.accounts := by
  unfold add_emailAttachment add_attachment
  dsimp only
  split <;> split <;> rfl

/-- Folding `add_emailAttachment` never touches the `accounts` table. -/
theorem accounts_foldl_attach (atts : List EmailAttachment) (s : Store) :
    (atts.foldl add_emailAttachment s).accounts = s.accounts := by
  induction atts generalizing s with
  | nil => rfl
  | cons a rest ih => rw [List.foldl_cons, ih, accounts_add_emailAttachment]

/-- A successful `add_email` never touches the `accounts` table. -/
theorem accounts_add_email (s : Store) (e : Email) (s1 : Store)
    (h : add_email s e = Except.ok s1) : s1.accounts = s.accounts := by
  unfold add_email at h
  split at h
  · exact absurd h (by simp)
  · cases h; rfl

/-- The persistence loop never touches the `accounts` table. -/
theorem accounts_persistMessages (render : String → String) (account : Account)
    (folder : String) (msgs : List MailMessage) (s : Store) :
    (persistMessages render account folder s msgs).accounts = s.accounts := by
  induction msgs generalizing s with
  | nil => rfl
  | cons m rest ih =>
    unfold persistMessages
    dsimp only
    cases h : add_email s (convert_MailMessage render account folder m).1 with
    | error e => rfl
    | ok s1 =>
      exact (ih _).trans ((accounts_foldl_attach _ _).trans (accounts_add_email s _ s1 h))

/-- The folder worker never touches the `accounts` table. -/
theorem accounts_thread_fetch (render : String → String) (account : Account)
    (folderMsgs : List MailMessage) (folder : String) (s : Store) :
    ((thread_fetch_emails_from_folder render account folderMsgs folder s).1).accounts
      = s.accounts := by
  unfold thread_fetch_emails_from_folder
  dsimp only
  split
  · rfl
  · exact accounts_persistMessages ..

/-- Claim C9 (amended): `fetch_emails` leaves the `accounts` table — in particular every
account's `last_synced` — exactly as it was: the ingestion path never invokes
`set_account_last_synced`, so no reconciliation pass updates `last_synced`. -/
theorem c9_fetch_preserves_accounts (render : String → String) (account : Account)
    (remote : List (String × List MailMessage)) (s : Store) :
    (fetch_emails render account remote s).accounts = s.accounts := by
  induction remote generalizing s with
  | nil => rfl
  | cons f rest ih =>
    show (fetch_emails render account rest
      ((thread_fetch_emails_from_folder render account f.2 f.1 s).1)).accounts = s.accounts
    rw [ih, accounts_thread_fetch]

/-- Counterexample to `C9` as stated: a full reconciliation pass over a one-message
remote persists the message, yet the account's `last_synced` afterwards still holds
exactly the value it held before the pass. -/
theorem c9_last_synced_unchanged_counterexample :
    (fetch_emails renderId acctW remoteOne storeW).accounts = storeW.accounts ∧
    (fetch_emails renderId acctW remoteOne storeW).accounts.map (fun a => a.last_synced)
      = ["1970-01-01T00:00:00"] ∧
    (fetch_emails renderId acctW remoteOne storeW).emails ≠ [] := by decide

/-- Claim C6 (amended): a store write error while persisting one message aborts the folder
worker's persistence loop: when the head message's insert violates the `emails` primary
key (its identity hash is already stored, so sqlite raises `IntegrityError`), the loop
returns the store as of the error and none of the subsequent messages are persisted. -/
theorem c6_store_error_aborts_worker (render : String → String) (account : Account)
    (folder : String) (s : Store) (m : MailMessage) (rest : List MailMessage)
    (h : check_email_exists s (convert_MailMessage render account folder m).1 = true) :
    persistMessages render account folder s (m :: rest) = s := by
  have h' : add_email s (convert_MailMessage render account folder m).1 = Except.error () := by
    unfold add_email
    rw [show (s.emails.any (fun r =>
      r.hash == (convert_MailMessage render account folder m).1.hash)) = true from h]
    rfl
  unfold persistMessages
  dsimp only
  rw [h']

/-- Witness for `C6` (amended): with `msgHello1` already stored, re-persisting the
sequence `[msgHello1, msgOther]` stops at the first write error and leaves the store
unchanged — `msgOther` is not persisted. -/
theorem c6_store_error_aborts_worker_witness :
    check_email_exists storeWithHello
      (convert_MailMessage renderId acctW "INBOX" msgHello1).1 = true ∧
    persistMessages renderId acctW "INBOX" storeWithHello [msgHello1, msgOther]
      = storeWithHello :=
  ⟨by decide,
   c6_store_error_aborts_worker renderId acctW "INBOX" storeWithHello msgHello1 [msgOther]
     (by decide)⟩

/-- Counterexample to `C6` as stated: in a folder whose three messages include two remote
copies with the same identity hash, all three are reported missing and fetched; the first
persists, the second's insert raises, and the third — a perfectly insertable later message
in the sequence — is *not* persisted: the write error was not confined to the single
failing message. -/
theorem c6_store_error_counterexample :
    (thread_fetch_emails_from_folder renderId acctW [msgHello1, msgHello2, msgOther]
      "INBOX" storeW).2 = some ["1", "2", "3"] ∧
    ((thread_fetch_emails_from_folder renderId acctW [msgHello1, msgHello2, msgOther]
      "INBOX" storeW).1).emails.map (fun e => e.mailbox_id) = ["1"] ∧
    check_email_exists
      ((thread_fetch_emails_from_folder renderId acctW [msgHello1, msgHello2, msgOther]
        "INBOX" storeW).1)
      (convert_MailMessage renderId acctW "INBOX" msgOther).1 = false := by decide

/-- A headers-only fetch does not change a message's uid. -/
theorem headersOnly_uid (m : MailMessage) : (headersOnly m).uid = m.uid := rfl

/-- The header loop with an arbitrary accumulator: it appends exactly the
`mailbox_id`s of the headers whose identity hash is absent from the store. -/
theorem headerMissing_go (render : String → String) (account : Account) (s : Store)
    (folder : String) (msgs : List MailMessage) (acc : List String) :
    msgs.foldl (fun missing m =>
      let email := (convert_MailMessage render account folder (headersOnly m)).1
      if check_email_exists s email then missing else missing ++ [email.mailbox_id]) acc =
    acc ++ (msgs.filter (fun m =>
      !(check_email_exists s (convert_MailMessage render account folder (headersOnly m)).1))).map
        (fun m => m.uid.getD "") := by
  induction msgs generalizing acc with
  | nil => simp
  | cons m rest ih =>
    rw [List.foldl_cons, ih]
    by_cases hc :
        check_email_exists s (convert_MailMessage render account folder (headersOnly m)).1 = true
    · simp [hc, List.filter_cons]
    · simp [hc, List.filter_cons, convert_mailbox_id, headersOnly_uid, List.append_assoc]

/-- The loop `headerMissing` collects exactly the uids of the headers whose identity hash is
absent from the store, in order. -/
theorem headerMissing_eq (render : String → String) (account : Account) (s : Store)
    (folder : String) (msgs : List MailMessage) :
    headerMissing render account s folder msgs =
      (msgs.filter (fun m =>
        !(check_email_exists s (convert_MailMessage render account folder (headersOnly m)).1))).map
          (fun m => m.uid.getD "") := by
  unfold headerMissing
  exact (headerMissing_go render account s folder msgs []).trans (by simp)

/-- Claim C2: the folder worker's full fetch requests exactly the uids of the headers whose
identity hash is absent from the store (headers whose hash exists are excluded), and when
no uid is missing the worker finishes immediately, with no full-fetch remote call and no
store change. -/
theorem c2_missing_only_fetch (render : String → String) (account : Account) (s : Store)
    (folder : String) (folderMsgs : List MailMessage) (missing : List String)
    (hdef : missing = (folderMsgs.filter (fun m =>
      !(check_email_exists s (convert_MailMessage render account folder (headersOnly m)).1))).map
        (fun m => m.uid.getD "")) :
    (thread_fetch_emails_from_folder render account folderMsgs folder s).2 =
      (if missing = [] then none else some missing) ∧
    (missing = [] →
      thread_fetch_emails_from_folder render account folderMsgs folder s = (s, none)) := by
  have hm : headerMissing render account s folder (folderMsgs.map headersOnly) = missing := by
    rw [headerMissing_eq, List.filter_map, List.map_map, hdef]
    simp only [Function.comp_def, headersOnly_idem, headersOnly_uid]
  unfold thread_fetch_emails_from_folder
  dsimp only
  rw [hm]
  constructor
  · by_cases h : missing = []
    · simp [h]
    · simp [h, List.isEmpty_iff]
  · intro h
    simp [h]

/-- Witness for `C2`: with `msgHello1` already stored, the folder's only header hashes
to a stored identity, the missing list is empty, and the worker returns the store
untouched with no full-fetch call. -/
theorem c2_missing_only_fetch_witness :
    (([msgHello1].filter (fun m =>
      !(check_email_exists storeWithHello
        (convert_MailMessage renderId acctW "INBOX" (headersOnly m)).1))).map
        (fun m => m.uid.getD "")) = [] ∧
    thread_fetch_emails_from_folder renderId acctW [msgHello1] "INBOX" storeWithHello
      = (storeWithHello, none) :=
  ⟨by decide,
   (c2_missing_only_fetch renderId acctW storeWithHello "INBOX" [msgHello1] [] (by decide)).2 rfl⟩

/-- Totality of the byte-order comparison. -/
theorem charListLe_total : (a b : List Char) → charListLe a b = true ∨ charListLe b a = true
  | [], _ => Or.inl rfl
  | _ :: _, [] => Or.inr rfl
  | x :: xs, y :: ys => by
    rcases Nat.lt_trichotomy x.toNat y.toNat with h | h | h
    · exact Or.inl (by simp [charListLe, h])
    · have hx : ¬ x.toNat < y.toNat := by omega
      have hy : ¬ y.toNat < x.toNat := by omega
      rcases charListLe_total xs ys with hc | hc
      · exact Or.inl (by simp [charListLe, hx, hy, hc])
      · exact Or.inr (by simp [charListLe, hx, hy, hc])
    · exact Or.inr (by simp [charListLe, h])

/-- Transitivity of the byte-order comparison. -/
theorem charListLe_trans : (a b c : List Char) → charListLe a b = true → charListLe b c = true →
    charListLe a c = true
  | [], _, _, _, _ => rfl
  | _ :: _, [], _, h1, _ => by simp [charListLe] at h1
  | _ :: _, _ :: _, [], _, h2 => by simp [charListLe] at h2
  | x :: xs, y :: ys, z :: zs, h1, h2 => by
    rcases Nat.lt_trichotomy x.toNat y.toNat with hxy | hxy | hxy
    · rcases Nat.lt_trichotomy y.toNat z.toNat with hyz | hyz | hyz
      · simp [charListLe, show x.toNat < z.toNat by omega]
      · simp [charListLe, show x.toNat < z.toNat by omega]
      · simp [charListLe, show ¬ y.toNat < z.toNat by omega, hyz] at h2
    · have h1' : charListLe xs ys = true := by
        simpa [charListLe, show ¬ x.toNat < y.toNat by omega,
          show ¬ y.toNat < x.toNat by omega] using h1
      rcases Nat.lt_trichotomy y.toNat z.toNat with hyz | hyz | hyz
      · simp [charListLe, show x.toNat < z.toNat by omega]
      · have h2' : charListLe ys zs = true := by
          simpa [charListLe, show ¬ y.toNat < z.toNat by omega,
            show ¬ z.toNat < y.toNat by omega] using h2
        simp [charListLe, show ¬ x.toNat < z.toNat by omega,
          show ¬ z.toNat < x.toNat by omega, charListLe_trans xs ys zs h1' h2']
      · simp [charListLe, show ¬ y.toNat < z.toNat by omega, hyz] at h2
    · simp [charListLe, show ¬ x.toNat < y.toNat by omega, hxy] at h1

/-- Totality of `strLe`. -/
theorem strLe_total (a b : String) : strLe a b = true ∨ strLe b a = true :=
  charListLe_total a.data b.data

/-- Transitivity of `strLe`. -/
theorem strLe_trans (a b c : String) (h1 : strLe a b = true) (h2 : strLe b c = true) :
    strLe a c = true :=
  charListLe_trans a.data b.data c.data h1 h2

/-- Inserting into the descending sort permutes a cons. -/
theorem insertGroupDesc_perm (x : GroupRow) (l : List GroupRow) :
    (insertGroupDesc x l).Perm (x :: l) := by
  induction l with
  | nil => exact List.Perm.refl _
  | cons y ys ih =>
    unfold insertGroupDesc
    split
    · exact ((ih.cons y).trans (List.Perm.swap x y ys))
    · exact List.Perm.refl _

/-- The descending sort is a permutation of its input. -/
theorem sortGroupsDesc_perm (l : List GroupRow) : (sortGroupsDesc l).Perm l := by
  induction l with
  | nil => exact List.Perm.refl _
  | cons x xs ih =>
    show (insertGroupDesc x (sortGroupsDesc xs)).Perm (x :: xs)
    exact (insertGroupDesc_perm x _).trans (ih.cons x)

/-- Inserting into a descending-sorted list keeps it descending-sorted. -/
theorem sorted_insertGroupDesc (x : GroupRow) (l : List GroupRow)
    (h : l.Pairwise (fun a b => strLe b.2.2 a.2.2 = true)) :
    (insertGroupDesc x l).Pairwise (fun a b => strLe b.2.2 a.2.2 = true) := by
  induction l with
  | nil => simp [insertGroupDesc]
  | cons y ys ih =>
    rcases List.pairwise_cons.mp h with ⟨hy, hys⟩
    unfold insertGroupDesc
    split
    case isTrue hc =>
      refine List.pairwise_cons.mpr ⟨?_, ih hys⟩
      intro z hz
      rcases List.mem_cons.mp ((insertGroupDesc_perm x ys).mem_iff.mp hz) with rfl | hzys
      · exact hc
      · exact hy z hzys
    case isFalse hc =>
      have hyx : strLe y.2.2 x.2.2 = true := by
        rcases strLe_total x.2.2 y.2.2 with h1 | h1
        · exact absurd h1 hc
        · exact h1
      refine List.pairwise_cons.mpr ⟨?_, h⟩
      intro z hz
      rcases List.mem_cons.mp hz with rfl | hzys
      · exact hyx
      · exact strLe_trans _ _ _ (hy z hzys) hyx

/-- The descending sort is descending-sorted. -/
theorem sorted_sortGroupsDesc (l : List GroupRow) :
    (sortGroupsDesc l).Pairwise (fun a b => strLe b.2.2 a.2.2 = true) := by
  induction l with
  | nil => simp [sortGroupsDesc]
  | cons x xs ih => exact sorted_insertGroupDesc x _ ih

/-- Membership in the first-occurrence dedup worker. -/
theorem mem_dedupFirstGo (l : List String) (seen : List String) (x : String) :
    x ∈ dedupFirstGo l seen ↔ x ∈ l ∧ x ∉ seen := by
  induction l generalizing seen with
  | nil => simp [dedupFirstGo]
  | cons y ys ih =>
    unfold dedupFirstGo
    split
    case isTrue hc =>
      rw [ih]
      constructor
      · rintro ⟨hmem, hs⟩
        exact ⟨List.mem_cons_of_mem _ hmem, hs⟩
      · rintro ⟨hmem, hs⟩
        rcases List.mem_cons.mp hmem with rfl | hmem'
        · exact absurd (by simpa using hc) hs
        · exact ⟨hmem', hs⟩
    case isFalse hc =>
      rw [List.mem_cons, ih]
      constructor
      · rintro (rfl | ⟨hmem, hs⟩)
        · exact ⟨List.mem_cons_self _ _, by simpa using hc⟩
        · refine ⟨List.mem_cons_of_mem _ hmem, fun hxs => hs ?_⟩
          exact List.mem_cons_of_mem _ hxs
      · rintro ⟨hmem, hs⟩
        rcases List.mem_cons.mp hmem with rfl | hmem'
        · exact Or.inl rfl
        · by_cases hxy : x = y
          · exact Or.inl hxy
          · exact Or.inr ⟨hmem', by simp [List.mem_cons, hxy, hs]⟩

/-- The first-occurrence dedup emits no duplicates. -/
theorem nodup_dedupFirstGo (l : List String) (seen : List String) :
    (dedupFirstGo l seen).Nodup := by
  induction l generalizing seen with
  | nil => simp [dedupFirstGo]
  | cons y ys ih =>
    unfold dedupFirstGo
    split
    · exact ih _
    · refine List.nodup_cons.mpr ⟨?_, ih _⟩
      rw [mem_dedupFirstGo]
      rintro ⟨_, hns⟩
      exact hns (List.mem_cons_self _ _)

/-- Membership in the first-occurrence dedup. -/
theorem mem_dedupFirst (l : List String) (x : String) : x ∈ dedupFirst l ↔ x ∈ l := by
  simp [dedupFirst, mem_dedupFirstGo]

/-- Claim C7 (amended): `get_unique_email_threads` returns one `(thread, count)` pair per
distinct thread of the account (membership iff, no duplicates), `count` is the number of
that account's messages with that thread key, and the pairs are ordered descending by
the `datetime` of each thread's *representative* row — the sqlite bare-column value,
the first matching row in insertion order — not necessarily by the most-recent
timestamp in the thread. -/
theorem c7_list_threads_by_representative (s : Store) (account : Account) :
    (∀ t, t ∈ (get_unique_email_threads s account).map Prod.fst ↔
      t ∈ (s.emails.filter (fun e => e.account_id == account.id)).map (fun e => e.thread)) ∧
    ((get_unique_email_threads s account).map Prod.fst).Nodup ∧
    (∀ p ∈ get_unique_email_threads s account,
      p.2 = ((s.emails.filter (fun e => e.account_id == account.id)).filter
        (fun e => e.thread == p.1)).length) ∧
    (get_unique_email_threads s account).Pairwise (fun p q =>
      strLe (repDatetime (s.emails.filter (fun e => e.account_id == account.id)) q.1)
            (repDatetime (s.emails.filter (fun e => e.account_id == account.id)) p.1)
        = true) := by
  set rows := s.emails.filter (fun e => e.account_id == account.id) with hrows
  set threads := dedupFirst (rows.map (fun e => e.thread)) with hthreads
  set groups : List GroupRow := threads.map (fun t =>
    (t, ((rows.filter (fun e => e.thread == t)).length, repDatetime rows t))) with hgroups
  have hdef : get_unique_email_threads s account
      = (sortGroupsDesc groups).map (fun g => (g.1, g.2.1)) := rfl
  have hperm : (sortGroupsDesc groups).Perm groups := sortGroupsDesc_perm groups
  have hfst : (get_unique_email_threads s account).map Prod.fst
      = (sortGroupsDesc groups).map (fun g => g.1) := by
    rw [hdef, List.map_map]; rfl
  have hfstperm : ((sortGroupsDesc groups).map (fun g => g.1)).Perm threads := by
    have hmapped := hperm.map (fun g : GroupRow => g.1)
    have h2 : groups.map (fun g : GroupRow => g.1) = threads := by
      rw [hgroups, List.map_map]; simp [Function.comp_def]
    rw [h2] at hmapped
    exact hmapped
  have hmem22 : ∀ g ∈ sortGroupsDesc groups, g.2.2 = repDatetime rows g.1 := by
    intro g hg
    have hg' : g ∈ groups := hperm.mem_iff.mp hg
    rw [hgroups] at hg'
    rcases List.mem_map.mp hg' with ⟨t, _, rfl⟩
    rfl
  refine ⟨?_, ?_, ?_, ?_⟩
  · intro t
    rw [hfst, hfstperm.mem_iff, hthreads, mem_dedupFirst]
  · rw [hfst, hfstperm.nodup_iff]
    exact nodup_dedupFirstGo _ _
  · intro p hp
    rw [hdef] at hp
    rcases List.mem_map.mp hp with ⟨g, hg, rfl⟩
    have hg' : g ∈ groups := hperm.mem_iff.mp hg
    rw [hgroups] at hg'
    rcases List.mem_map.mp hg' with ⟨t, _, rfl⟩
    rfl
  · rw [hdef, List.pairwise_map]
    refine List.Pairwise.imp_of_mem ?_ (sorted_sortGroupsDesc groups)
    intro a b ha hb hr
    dsimp only
    rw [← hmem22 a ha, ← hmem22 b hb]
    exact hr

/-- Counterexample to `C7` as stated: thread "a" holds the account's most recent
message, but because its representative — the first row of its group in scan order —
is its oldest one, the query orders thread "b" first: the output is not ordered by
most-recent message timestamp descending. -/
theorem c7_threads_order_counterexample :
    get_unique_email_threads storeThreads acctW = [("b", 1), ("a", 2)] ∧
    ¬ orderedByMostRecentDesc storeThreads acctW
        (get_unique_email_threads storeThreads acctW) := by
  constructor
  · decide
  · decide

/-- Witness for `C7` (amended): the pair `("a", 2)` appears in the fixture output and
its count equals the number of the account's rows with thread key `"a"`. -/
theorem c7_list_threads_witness :
    (("a", 2) ∈ get_unique_email_threads storeThreads acctW) ∧
    2 = ((storeThreads.emails.filter (fun e => e.account_id == acctW.id)).filter
      (fun e => e.thread == "a")).length :=
  ⟨by decide,
   (c7_list_threads_by_representative storeThreads acctW).2.2.1 ("a", 2) (by decide)⟩

/-- The link-existence check ignores the `attachments` table. -/
theorem check_link_add_attachment (t : Store) (a : Attachment) (ea : EmailAttachment) :
    check_email_attachment_exists (add_attachment t a) ea
      = check_email_attachment_exists t ea := rfl

/-- The operation `add_emailAttachment` never touches the `emails` table. -/
theorem emails_add_emailAttachment (t : Store) (ea : EmailAttachment) :
    (add_emailAttachment t ea).emails = t.emails := by
  unfold add_emailAttachment add_attachment
  dsimp only
  split <;> split <;> rfl

/-- Folding `add_emailAttachment` never touches the `emails` table. -/
theorem emails_foldl_attach (atts : List EmailAttachment) (t : Store) :
    (atts.foldl add_emailAttachment t).emails = t.emails := by
  induction atts generalizing t with
  | nil => rfl
  | cons a rest ih => rw [List.foldl_cons, ih, emails_add_emailAttachment]

/-- Models `put_attachment` behaviour inside `add_emailAttachment`: when the content hash is
already present, no attachment row is inserted. -/
theorem add_emailAttachment_attachments_present (t : Store) (ea : EmailAttachment)
    (h : check_attachment_exists t ea.attachment = true) :
    (add_emailAttachment t ea).attachments = t.attachments := by
  unfold add_emailAttachment
  dsimp only
  rw [if_pos h]
  split <;> rfl

/-- Models `put_attachment` behaviour inside `add_emailAttachment`: when the content hash is
absent, exactly that attachment row is appended. -/
theorem add_emailAttachment_attachments_absent (t : Store) (ea : EmailAttachment)
    (h : check_attachment_exists t ea.attachment = false) :
    (add_emailAttachment t ea).attachments = t.attachments ++ [ea.attachment] := by
  have hn : ¬ check_attachment_exists t ea.attachment = true := by simp [h]
  unfold add_emailAttachment
  dsimp only
  rw [if_neg hn]
  split <;> rfl

/-- Models `put_attachment_link` behaviour: when the composite key `(account_id, email_hash,
attachment_hash)` is already present, no link row is inserted. -/
theorem add_emailAttachment_links_present (t : Store) (ea : EmailAttachment)
    (h : check_email_attachment_exists t ea = true) :
    (add_emailAttachment t ea).email_attachments = t.email_attachments := by
  unfold add_emailAttachment
  dsimp only
  by_cases hc : check_attachment_exists t ea.attachment = true
  · rw [if_pos hc, if_pos h]
  · rw [if_neg hc,
      if_pos (show check_email_attachment_exists (add_attachment t ea.attachment) ea = true
        from h)]
    rfl

/-- Models `put_attachment_link` behaviour: when the composite key is absent, exactly that
link row is appended. -/
theorem add_emailAttachment_links_absent (t : Store) (ea : EmailAttachment)
    (h : check_email_attachment_exists t ea = false) :
    (add_emailAttachment t ea).email_attachments = t.email_attachments ++ [linkRow ea] := by
  have hn : ¬ check_email_attachment_exists t ea = true := by simp [h]
  unfold add_emailAttachment
  dsimp only
  by_cases hc : check_attachment_exists t ea.attachment = true
  · rw [if_pos hc, if_neg hn]
  · rw [if_neg hc,
      if_neg (show ¬ check_email_attachment_exists (add_attachment t ea.attachment) ea = true
        from hn)]
    rfl

/-- A fresh identity hash makes `add_email` succeed, appending exactly one row. -/
theorem add_email_ok (s : Store) (e : Email) (h : check_email_exists s e = false) :
    add_email s e = Except.ok { s with emails := s.emails ++ [emailToRow e] } := by
  unfold add_email
  rw [show (s.emails.any fun r => r.hash == e.hash) = false from h]
  rfl

/-- Unfolding one step of the persistence loop when the head message's insert succeeds. -/
theorem persistMessages_cons_ok (render : String → String) (account : Account)
    (folder : String) (s : Store) (m : MailMessage) (rest : List MailMessage)
    (h : check_email_exists s (convert_MailMessage render account folder m).1 = false) :
    persistMessages render account folder s (m :: rest) =
      persistMessages render account folder
        ((convert_MailMessage render account folder m).2.foldl add_emailAttachment
          { s with emails := s.emails ++
              [emailToRow (convert_MailMessage render account folder m).1] })
        rest := by
  conv_lhs => rw [persistMessages]
  rw [add_email_ok _ _ h]

/-- The conversion of a message with a single archivable attachment yields exactly
one `EmailAttachment`, content-addressed by the SHA-256 of its raw bytes. -/
theorem convert_atts_singleton (render : String → String) (account : Account)
    (folder : String) (m : MailMessage) (a : MailAttachment)
    (hm : m.attachments = [a]) (hct : archivableType a.content_type = true) :
    (convert_MailMessage render account folder m).2 =
      [{ account_id := account.id,
         email_hash := generate_email_id account m,
         attachment_hash := sha256hex a.payload, filename := a.filename,
         content_type := a.content_type,
         attachment := { hash := sha256hex a.payload, content := a.payload } }] := by
  have hct' := hct
  simp only [archivableType, Bool.and_eq_true, Bool.not_eq_true'] at hct'
  obtain ⟨⟨hcal, hinl⟩, himg⟩ := hct'
  unfold convert_MailMessage
  dsimp only
  rw [hm]
  simp [hcal, hinl, himg]

/-- The persistence loop on an empty batch is the identity. -/
theorem persistMessages_nil (render : String → String) (account : Account) (folder : String)
    (s : Store) : persistMessages render account folder s [] = s := rfl

/-- Claim C5: two ingested messages with distinct identity hashes carrying byte-identical
attachments under different filenames leave exactly one attachment row for that content
hash and two distinct link rows; moreover the attachment insert happens only if the
content hash is absent and the link insert only if the composite key
`(account_id, message_hash, attachment_hash)` is absent. -/
theorem c5_attachment_dedup (render : String → String) (account : Account) (folder : String)
    (m1 m2 : MailMessage) (a1 a2 : MailAttachment) (s : Store)
    (hm1 : m1.attachments = [a1]) (hm2 : m2.attachments = [a2])
    (hpay : a1.payload = a2.payload) (_hfn : a1.filename ≠ a2.filename)
    (hct1 : archivableType a1.content_type = true)
    (hct2 : archivableType a2.content_type = true)
    (hhash : generate_email_id account m1 ≠ generate_email_id account m2)
    (habs1 : check_email_exists s (convert_MailMessage render account folder m1).1 = false)
    (habs2 : check_email_exists s (convert_MailMessage render account folder m2).1 = false)
    (hatt : s.attachments.all (fun r => r.hash != sha256hex a1.payload) = true)
    (hlinks : s.email_attachments.all
      (fun r => r.attachment_hash != sha256hex a1.payload) = true) :
    (((persistMessages render account folder s [m1, m2]).attachments.filter
        (fun r => r.hash == sha256hex a1.payload)).length = 1) ∧
    (((persistMessages render account folder s [m1, m2]).email_attachments.filter
        (fun r => r.attachment_hash == sha256hex a1.payload)).length = 2) ∧
    (({ account_id := account.id, email_hash := generate_email_id account m1,
        attachment_hash := sha256hex a1.payload, filename := a1.filename,
        content_type := a1.content_type } : EmailAttachmentRow) ∈
      (persistMessages render account folder s [m1, m2]).email_attachments) ∧
    (({ account_id := account.id, email_hash := generate_email_id account m2,
        attachment_hash := sha256hex a1.payload, filename := a2.filename,
        content_type := a2.content_type } : EmailAttachmentRow) ∈
      (persistMessages render account folder s [m1, m2]).email_attachments) ∧
    (({ account_id := account.id, email_hash := generate_email_id account m1,
        attachment_hash := sha256hex a1.payload, filename := a1.filename,
        content_type := a1.content_type } : EmailAttachmentRow) ≠
      { account_id := account.id, email_hash := generate_email_id account m2,
        attachment_hash := sha256hex a1.payload, filename := a2.filename,
        content_type := a2.content_type }) ∧
    (∀ (t : Store) (ea : EmailAttachment), check_attachment_exists t ea.attachment = true →
      (add_emailAttachment t ea).attachments = t.attachments) ∧
    (∀ (t : Store) (ea : EmailAttachment), check_attachment_exists t ea.attachment = false →
      (add_emailAttachment t ea).attachments = t.attachments ++ [ea.attachment]) ∧
    (∀ (t : Store) (ea : EmailAttachment), check_email_attachment_exists t ea = true →
      (add_emailAttachment t ea).email_attachments = t.email_attachments) ∧
    (∀ (t : Store) (ea : EmailAttachment), check_email_attachment_exists t ea = false →
      (add_emailAttachment t ea).email_attachments = t.email_attachments ++ [linkRow ea]) := by
  have hA1 := convert_atts_singleton render account folder m1 a1 hm1 hct1
  have hA2 := convert_atts_singleton render account folder m2 a2 hm2 hct2
  rw [← hpay] at hA2
  simp only [List.all_eq_true, bne_iff_ne, ne_eq] at hatt hlinks
  rw [persistMessages_cons_ok render account folder s m1 [m2] habs1, hA1,
    List.foldl_cons, List.foldl_nil]
  set sA : Store :=
    { s with emails := s.emails ++ [emailToRow (convert_MailMessage render account folder m1).1] }
    with hsA
  set l1 : EmailAttachment :=
    { account_id := account.id, email_hash := generate_email_id account m1,
      attachment_hash := sha256hex a1.payload, filename := a1.filename,
      content_type := a1.content_type,
      attachment := { hash := sha256hex a1.payload, content := a1.payload } } with hl1
  set l2 : EmailAttachment :=
    { account_id := account.id, email_hash := generate_email_id account m2,
      attachment_hash := sha256hex a1.payload, filename := a2.filename,
      content_type := a2.content_type,
      attachment := { hash := sha256hex a1.payload, content := a1.payload } } with hl2
  have hB_emails : (add_emailAttachment sA l1).emails = sA.emails :=
    emails_add_emailAttachment sA l1
  have hB_att : (add_emailAttachment sA l1).attachments =
      s.attachments ++ [l1.attachment] := by
    apply add_emailAttachment_attachments_absent
    unfold check_attachment_exists
    rw [List.any_eq_false]
    intro r hr
    simp [hatt r hr, hl1]
  have hB_links : (add_emailAttachment sA l1).email_attachments =
      s.email_attachments ++ [linkRow l1] := by
    apply add_emailAttachment_links_absent
    unfold check_email_attachment_exists
    rw [List.any_eq_false]
    intro r hr
    simp [hlinks r hr, hl1]
  have habs2' : check_email_exists (add_emailAttachment sA l1)
      (convert_MailMessage render account folder m2).1 = false := by
    unfold check_email_exists
    rw [hB_emails, hsA]
    dsimp only
    rw [List.any_append]
    have hx : s.emails.any (fun r =>
        r.hash == (convert_MailMessage render account folder m2).1.hash) = false := habs2
    have hy : ((emailToRow (convert_MailMessage render account folder m1).1).hash ==
        (convert_MailMessage render account folder m2).1.hash) = false := by
      simp only [emailToRow, convert_hash]
      exact beq_eq_false_iff_ne.mpr hhash
    simp [hx, hy]
  rw [persistMessages_cons_ok render account folder (add_emailAttachment sA l1) m2 [] habs2',
    hA2, List.foldl_cons, List.foldl_nil, persistMessages_nil]
  set sC : Store := { (add_emailAttachment sA l1) with
    emails := (add_emailAttachment sA l1).emails ++
      [emailToRow (convert_MailMessage render account folder m2).1] } with hsC
  have hC_att : sC.attachments = s.attachments ++ [l1.attachment] := hB_att
  have hC_links : sC.email_attachments = s.email_attachments ++ [linkRow l1] := hB_links
  have hfin_att : (add_emailAttachment sC l2).attachments = sC.attachments := by
    apply add_emailAttachment_attachments_present
    unfold check_attachment_exists
    rw [hC_att, List.any_append]
    simp [hl1, hl2]
  have hfin_links : (add_emailAttachment sC l2).email_attachments =
      sC.email_attachments ++ [linkRow l2] := by
    apply add_emailAttachment_links_absent
    unfold check_email_attachment_exists
    rw [hC_links, List.any_append]
    have hxs : s.email_attachments.any (fun r =>
        r.account_id == l2.account_id && r.email_hash == l2.email_hash &&
        r.attachment_hash == l2.attachment_hash) = false := by
      rw [List.any_eq_false]
      intro r hr
      simp [hlinks r hr, hl2]
    have hy1 : ((linkRow l1).email_hash == l2.email_hash) = false := by
      simp only [linkRow, hl1, hl2]
      exact beq_eq_false_iff_ne.mpr hhash
    simp [hxs, hy1]
  have hfilA : s.attachments.filter (fun r => r.hash == sha256hex a1.payload) = [] := by
    rw [List.filter_eq_nil_iff]
    intro r hr
    simp [hatt r hr]
  have hfilL : s.email_attachments.filter
      (fun r => r.attachment_hash == sha256hex a1.payload) = [] := by
    rw [List.filter_eq_nil_iff]
    intro r hr
    simp [hlinks r hr]
  refine ⟨?_, ?_, ?_, ?_, ?_, ?_, ?_, ?_, ?_⟩
  · rw [hfin_att, hC_att, List.filter_append, hfilA]
    simp [hl1]
  · rw [hfin_links, hC_links, List.filter_append, List.filter_append, hfilL]
    simp [linkRow, hl1, hl2]
  · rw [hfin_links, hC_links]
    simp [linkRow, hl1]
  · rw [hfin_links, hC_links]
    simp [linkRow, hl2]
  · simp [EmailAttachmentRow.mk.injEq, hhash]
  · exact fun t ea h => add_emailAttachment_attachments_present t ea h
  · exact fun t ea h => add_emailAttachment_attachments_absent t ea h
  · exact fun t ea h => add_emailAttachment_links_present t ea h
  · exact fun t ea h => add_emailAttachment_links_absent t ea h

/-- Witness for `C5`: ingesting the two fixture messages, whose PDFs are byte-identical
but differently named, leaves exactly one matching attachment row and two matching
link rows. -/
theorem c5_attachment_dedup_witness :
    (generate_email_id acctW msgAtt1 ≠ generate_email_id acctW msgAtt2 ∧
     attPdf1.payload = attPdf2.payload ∧ attPdf1.filename ≠ attPdf2.filename) ∧
    (((persistMessages renderId acctW "INBOX" storeW [msgAtt1, msgAtt2]).attachments.filter
        (fun r => r.hash == sha256hex attPdf1.payload)).length = 1) ∧
    (((persistMessages renderId acctW "INBOX" storeW
        [msgAtt1, msgAtt2]).email_attachments.filter
        (fun r => r.attachment_hash == sha256hex attPdf1.payload)).length = 2) := by
  have h := c5_attachment_dedup renderId acctW "INBOX" msgAtt1 msgAtt2 attPdf1 attPdf2 storeW
    rfl rfl rfl (by decide) (by decide) (by decide) (by decide) (by decide) (by decide)
    (by decide) (by decide)
  exact ⟨⟨by decide, rfl, by decide⟩, h.1, h.2.1⟩

/-- The existence check holds exactly when the identity hash is among the stored hashes. -/
theorem check_email_exists_eq_true_iff (s : Store) (e : Email) :
    check_email_exists s e = true ↔ e.hash ∈ storedHashes s := by
  simp [check_email_exists, storedHashes, List.any_eq_true, beq_iff_eq, List.mem_map]

/-- A successful `add_email` appends exactly one row to the `emails` table. -/
theorem emails_add_email (s : Store) (e : Email) (s1 : Store)
    (h : add_email s e = Except.ok s1) : s1.emails = s.emails ++ [emailToRow e] := by
  unfold add_email at h
  split at h
  · exact absurd h (by simp)
  · cases h; rfl

/-- One-step unfolding of the persistence loop. -/
theorem persistMessages_cons_eq (render : String → String) (account : Account)
    (folder : String) (s : Store) (m : MailMessage) (rest : List MailMessage) :
    persistMessages render account folder s (m :: rest) =
      match add_email s (convert_MailMessage render account folder m).1 with
      | Except.error _ => s
      | Except.ok s1 => persistMessages render account folder
          ((convert_MailMessage render account folder m).2.foldl add_emailAttachment s1) rest := by
  conv_lhs => rw [persistMessages]

/-- The persistence loop only ever appends to the `emails` table: stored hashes persist. -/
theorem persist_mono (render : String → String) (account : Account) (folder : String) :
    ∀ (msgs : List MailMessage) (s : Store) (h : String), h ∈ storedHashes s →
      h ∈ storedHashes (persistMessages render account folder s msgs)
  | [], _, _, hh => hh
  | m :: rest, s, h, hh => by
    rw [persistMessages_cons_eq]
    cases hb : add_email s (convert_MailMessage render account folder m).1 with
    | error e => exact hh
    | ok s1 =>
      apply persist_mono render account folder rest
      unfold storedHashes
      rw [emails_foldl_attach, emails_add_email s _ s1 hb, List.map_append]
      exact List.mem_append_left _ hh

/-- With pairwise-distinct fresh hashes, the persistence loop stores every message of the
batch: the stored hashes afterwards are the old ones followed by the batch's hashes. -/
theorem persist_all (render : String → String) (account : Account) (folder : String) :
    ∀ (msgs : List MailMessage) (s : Store),
      msgs.Pairwise (fun a b => generate_email_id account a ≠ generate_email_id account b) →
      (∀ m ∈ msgs, generate_email_id account m ∉ storedHashes s) →
      storedHashes (persistMessages render account folder s msgs)
        = storedHashes s ++ msgs.map (fun m => generate_email_id account m)
  | [], s, _, _ => by simp [persistMessages_nil]
  | m :: rest, s, hw, hfresh => by
    have hch : check_email_exists s (convert_MailMessage render account folder m).1 = false := by
      cases hb : check_email_exists s (convert_MailMessage render account folder m).1
      · rfl
      · have hmem := (check_email_exists_eq_true_iff s _).mp hb
        rw [convert_hash] at hmem
        exact absurd hmem (hfresh m (List.mem_cons_self _ _))
    rw [persistMessages_cons_ok render account folder s m rest hch]
    have hmid : storedHashes
        ((convert_MailMessage render account folder m).2.foldl add_emailAttachment
          { s with emails := s.emails ++
            [emailToRow (convert_MailMessage render account folder m).1] })
        = storedHashes s ++ [generate_email_id account m] := by
      unfold storedHashes
      rw [emails_foldl_attach]
      simp [emailToRow, convert_hash]
    have hfresh' : ∀ m' ∈ rest, generate_email_id account m' ∉ storedHashes
        ((convert_MailMessage render account folder m).2.foldl add_emailAttachment
          { s with emails := s.emails ++
            [emailToRow (convert_MailMessage render account folder m).1] }) := by
      intro m' hm'
      rw [hmid, List.mem_append]
      rintro (hin | hin)
      · exact hfresh m' (List.mem_cons_of_mem _ hm') hin
      · have hne := List.rel_of_pairwise_cons hw hm'
        simp only [List.mem_singleton] at hin
        exact hne hin.symm
    rw [persist_all render account folder rest _ hw.of_cons hfresh', hmid]
    simp

/-- When every message of the folder is already stored, the worker is a no-op that makes
no full-fetch call. -/
theorem runFolder_noop (render : String → String) (account : Account)
    (folderMsgs : List MailMessage) (folder : String) (s : Store)
    (hall : ∀ m ∈ folderMsgs, generate_email_id account m ∈ storedHashes s) :
    thread_fetch_emails_from_folder render account folderMsgs folder s = (s, none) := by
  have hm : headerMissing render account s folder (folderMsgs.map headersOnly) = [] := by
    rw [headerMissing_eq, List.filter_map, List.map_eq_nil_iff, List.map_eq_nil_iff,
      List.filter_eq_nil_iff]
    intro m hmem
    simp only [Function.comp_def, headersOnly_idem, Bool.not_eq_true']
    rw [Bool.not_eq_false]
    apply (check_email_exists_eq_true_iff _ _).mpr
    rw [convert_hash, generate_email_id_headersOnly]
    exact hall m hmem
  unfold thread_fetch_emails_from_folder
  dsimp only
  rw [hm]
  rfl

/-- The folder worker only ever appends to the `emails` table: stored hashes persist. -/
theorem runFolder_mono (render : String → String) (account : Account)
    (folderMsgs : List MailMessage) (folder : String) (s : Store) (h : String)
    (hh : h ∈ storedHashes s) :
    h ∈ storedHashes ((thread_fetch_emails_from_folder render account folderMsgs folder s).1) := by
  unfold thread_fetch_emails_from_folder
  dsimp only
  split
  · exact hh
  · exact persist_mono render account folder _ s h hh

/-- With pairwise-distinct identity hashes and uids in a folder, the worker leaves every
one of the folder's messages stored. -/
theorem runFolder_all (render : String → String) (account : Account)
    (folderMsgs : List MailMessage) (folder : String) (s : Store)
    (hw : folderMsgs.Pairwise
      (fun a b => generate_email_id account a ≠ generate_email_id account b))
    (hu : folderMsgs.Pairwise (fun a b => a.uid.getD "" ≠ b.uid.getD "")) :
    ∀ m ∈ folderMsgs, generate_email_id account m ∈
      storedHashes ((thread_fetch_emails_from_folder render account folderMsgs folder s).1) := by
  intro m hm
  have hmiss : headerMissing render account s folder (folderMsgs.map headersOnly)
      = (folderMsgs.filter (fun m' => !(check_email_exists s
          (convert_MailMessage render account folder (headersOnly m')).1))).map
        (fun m' => m'.uid.getD "") := by
    rw [headerMissing_eq, List.filter_map, List.map_map]
    simp only [Function.comp_def, headersOnly_idem, headersOnly_uid]
  unfold thread_fetch_emails_from_folder
  dsimp only
  rw [hmiss]
  split
  case isTrue hempty =>
    rw [List.isEmpty_iff, List.map_eq_nil_iff, List.filter_eq_nil_iff] at hempty
    have hck := hempty m hm
    simp only [Bool.not_eq_true', Bool.not_eq_false] at hck
    have hmem := (check_email_exists_eq_true_iff s _).mp hck
    rw [convert_hash, generate_email_id_headersOnly] at hmem
    exact hmem
  case isFalse hne =>
    by_cases hstored : generate_email_id account m ∈ storedHashes s
    · exact persist_mono render account folder _ s _ hstored
    · have hcheckm : check_email_exists s
          (convert_MailMessage render account folder (headersOnly m)).1 = false := by
        cases hb : check_email_exists s
            (convert_MailMessage render account folder (headersOnly m)).1
        · rfl
        · have hmem := (check_email_exists_eq_true_iff s _).mp hb
          rw [convert_hash, generate_email_id_headersOnly] at hmem
          exact absurd hmem hstored
      have hmfull : m ∈ folderMsgs.filter (fun m' =>
          ((folderMsgs.filter (fun m'' => !(check_email_exists s
            (convert_MailMessage render account folder (headersOnly m'')).1))).map
            (fun m'' => m''.uid.getD "")).contains (m'.uid.getD "")) := by
        rw [List.mem_filter]
        refine ⟨hm, ?_⟩
        have huidmem : (m.uid.getD "") ∈ (folderMsgs.filter (fun m'' =>
            !(check_email_exists s
              (convert_MailMessage render account folder (headersOnly m'')).1))).map
            (fun m'' => m''.uid.getD "") := by
          apply List.mem_map_of_mem
          rw [List.mem_filter]
          exact ⟨hm, by simp [hcheckm]⟩
        simpa using huidmem
      have hfw : (folderMsgs.filter (fun m' =>
          ((folderMsgs.filter (fun m'' => !(check_email_exists s
            (convert_MailMessage render account folder (headersOnly m'')).1))).map
            (fun m'' => m''.uid.getD "")).contains (m'.uid.getD ""))).Pairwise
          (fun a b => generate_email_id account a ≠ generate_email_id account b) :=
        hw.filter _
      have hffresh : ∀ m' ∈ folderMsgs.filter (fun m'' =>
          ((folderMsgs.filter (fun m3 => !(check_email_exists s
            (convert_MailMessage render account folder (headersOnly m3)).1))).map
            (fun m3 => m3.uid.getD "")).contains (m''.uid.getD "")),
          generate_email_id account m' ∉ storedHashes s := by
        intro m' hm'
        rw [List.mem_filter] at hm'
        obtain ⟨hm'mem, hcont⟩ := hm'
        have huid : (m'.uid.getD "") ∈ (folderMsgs.filter (fun m3 =>
            !(check_email_exists s
              (convert_MailMessage render account folder (headersOnly m3)).1))).map
            (fun m3 => m3.uid.getD "") := by simpa using hcont
        rw [List.mem_map] at huid
        obtain ⟨m'', hm''f, huideq⟩ := huid
        rw [List.mem_filter] at hm''f
        obtain ⟨hm''mem, hm''p⟩ := hm''f
        have heq : m'' = m' := by
          by_contra hne'
          exact List.Pairwise.forall (fun ⦃_ _⦄ hab => fun hba => hab hba.symm) hu
            hm''mem hm'mem hne' huideq
        subst heq
        intro hmemS
        have : check_email_exists s
            (convert_MailMessage render account folder (headersOnly m'')).1 = true := by
          apply (check_email_exists_eq_true_iff s _).mpr
          rw [convert_hash, generate_email_id_headersOnly]
          exact hmemS
        rw [this] at hm''p
        simp at hm''p
      have hall := persist_all render account folder _ s hfw hffresh
      rw [hall]
      apply List.mem_append_right
      exact List.mem_map_of_mem _ hmfull

/-- The pass `fetch_emails` only ever appends to the `emails` table: stored hashes persist. -/
theorem fetch_mono (render : String → String) (account : Account) :
    ∀ (remote : List (String × List MailMessage)) (s : Store) (h : String),
      h ∈ storedHashes s → h ∈ storedHashes (fetch_emails render account remote s)
  | [], _, _, hh => hh
  | f :: rest, s, h, hh =>
    fetch_mono render account rest _ h (runFolder_mono render account f.2 f.1 s h hh)

/-- After one full pass with per-folder distinct hashes and uids, every remote message's
identity hash is stored. -/
theorem fetch_all (render : String → String) (account : Account) :
    ∀ (remote : List (String × List MailMessage)) (s : Store),
      (∀ p ∈ remote,
        p.2.Pairwise (fun a b => generate_email_id account a ≠ generate_email_id account b) ∧
        p.2.Pairwise (fun a b => a.uid.getD "" ≠ b.uid.getD "")) →
      ∀ p ∈ remote, ∀ m ∈ p.2,
        generate_email_id account m ∈ storedHashes (fetch_emails render account remote s)
  | [], _, _, p, hp, _, _ => absurd hp (List.not_mem_nil p)
  | f :: rest, s, hW, p, hp, m, hm => by
    rcases List.mem_cons.mp hp with rfl | hp'
    · exact fetch_mono render account rest _ _
        (runFolder_all render account p.2 p.1 s (hW p (List.mem_cons_self _ _)).1
          (hW p (List.mem_cons_self _ _)).2 m hm)
    · exact fetch_all render account rest _
        (fun q hq => hW q (List.mem_cons_of_mem _ hq)) p hp' m hm

/-- A pass over a remote whose messages are all already stored changes nothing. -/
theorem fetch_noop (render : String → String) (account : Account) :
    ∀ (remote : List (String × List MailMessage)) (s : Store),
      (∀ p ∈ remote, ∀ m ∈ p.2, generate_email_id account m ∈ storedHashes s) →
      fetch_emails render account remote s = s
  | [], _, _ => rfl
  | f :: rest, s, hall => by
    have hwk : thread_fetch_emails_from_folder render account f.2 f.1 s = (s, none) :=
      runFolder_noop render account f.2 f.1 s (hall f (List.mem_cons_self _ _))
    show fetch_emails render account rest
      ((thread_fetch_emails_from_folder render account f.2 f.1 s).1) = s
    rw [hwk]
    exact fetch_noop render account rest s (fun p hp => hall p (List.mem_cons_of_mem _ hp))

/-- Claim C1 (amended): provided each folder's remote messages have pairwise-distinct
identity hashes and pairwise-distinct uids, running `fetch_emails` twice against an
unchanged remote yields exactly the store of the first run: the second run is a no-op
and creates no message, attachment, or link rows. -/
theorem c1_fetch_idempotent (render : String → String) (account : Account)
    (remote : List (String × List MailMessage)) (s : Store)
    (hw : ∀ p ∈ remote,
      p.2.Pairwise (fun a b => generate_email_id account a ≠ generate_email_id account b))
    (hu : ∀ p ∈ remote, p.2.Pairwise (fun a b => a.uid.getD "" ≠ b.uid.getD "")) :
    fetch_emails render account remote (fetch_emails render account remote s)
      = fetch_emails render account remote s := by
  apply fetch_noop
  intro p hp m hm
  exact fetch_all render account remote s (fun q hq => ⟨hw q hq, hu q hq⟩) p hp m hm

/-- Witness for `C1` (amended): on the duplicate-free fixture remote the second run
returns exactly the first run's store. -/
theorem c1_fetch_idempotent_witness :
    (∀ p ∈ remoteOk,
      p.2.Pairwise (fun a b => generate_email_id acctW a ≠ generate_email_id acctW b)) ∧
    (∀ p ∈ remoteOk, p.2.Pairwise (fun a b => a.uid.getD "" ≠ b.uid.getD "")) ∧
    fetch_emails renderId acctW remoteOk (fetch_emails renderId acctW remoteOk storeW)
      = fetch_emails renderId acctW remoteOk storeW :=
  ⟨by decide, by decide,
   c1_fetch_idempotent renderId acctW remoteOk storeW (by decide) (by decide)⟩

/-- Counterexample to `C1` as stated: against an unchanged remote whose folder holds two
remote copies with the same identity hash plus a third distinct message, the first run
aborts mid-folder (duplicate-key insert error) having stored one message, and the second
run stores the third message: the store contents after the second run differ from those
after the first. -/
theorem c1_fetch_not_idempotent_counterexample :
    fetch_emails renderId acctW remoteDup (fetch_emails renderId acctW remoteDup storeW)
      ≠ fetch_emails renderId acctW remoteDup storeW ∧
    (fetch_emails renderId acctW remoteDup storeW).emails.length = 1 ∧
    (fetch_emails renderId acctW remoteDup
      (fetch_emails renderId acctW remoteDup storeW)).emails.length = 2 := by
  refine ⟨by decide, by decide, by decide⟩

end EmailService
